import Mathlib

/-!
Shallow embedding of the board-state core of the farce chess engine
(src/color.rs and src/position.rs): the cell grid, the Position record,
FEN decoding and in-place move application, together with theorems
settling the specification claims about them.

Conventions of the embedding:
* Rust `usize` board indices that are provably in bounds are `Fin 8`;
  the `en_passant` field keeps plain `Nat` pairs, as the Rust field is
  `Option<(usize, usize)>`.
* A Rust panic (contract violation or index abort) is `none` for
  `make_move` and a dedicated `FenError` value for `from_fen`.
* Row 0 is rank 8 and column 0 is file a, exactly as in position.rs.
-/

/-- Color of a piece or of the side to move, from color.rs. -/
inductive Color where
  | White
  | Black
deriving DecidableEq

/-- Color flip, from fn opposite_color in color.rs. -/
def opposite_color : Color → Color
  | Color.White => Color.Black
  | Color.Black => Color.White

/-- Modelled from the spec: piece.rs is not part of the given source tree.
Section 3 of the spec fixes PieceType as the closed tag set
Pawn, Knight, Bishop, Rook, Queen, King with no behavior; every variant is
also named explicitly in position.rs. -/
inductive PieceType where
  | Pawn
  | Knight
  | Bishop
  | Rook
  | Queen
  | King
deriving DecidableEq

/-- A board cell, from enum Cell in position.rs. -/
inductive Cell where
  | Empty
  | Piece (t : PieceType) (c : Color)
deriving DecidableEq

/-- The 8x8 cell grid of position.rs; row 0 is rank 8, column 0 is file a. -/
abbrev Board := Fin 8 → Fin 8 → Cell

/-- Functional update of one square, modelling the assignment
cells[r][c] = v of position.rs. -/
def setCell (cells : Board) (r c : Fin 8) (v : Cell) : Board :=
  fun i j => if i = r ∧ j = c then v else cells i j

/-- The Position struct of position.rs. -/
structure Position where
  cells : Board
  side_to_move : Color
  halfmove_clock : Nat
  white_can_castle_kingside : Bool
  white_can_castle_queenside : Bool
  black_can_castle_kingside : Bool
  black_can_castle_queenside : Bool
  en_passant : Option (Nat × Nat)

/-- Structural equality of Position values is decidable; stated through
decidable_of_iff so that concrete comparisons evaluate by kernel
reduction (the grid field is compared pointwise over the finite index
type). -/
instance : DecidableEq Position := fun p q =>
  decidable_of_iff
    (p.cells = q.cells ∧ p.side_to_move = q.side_to_move ∧
     p.halfmove_clock = q.halfmove_clock ∧
     p.white_can_castle_kingside = q.white_can_castle_kingside ∧
     p.white_can_castle_queenside = q.white_can_castle_queenside ∧
     p.black_can_castle_kingside = q.black_can_castle_kingside ∧
     p.black_can_castle_queenside = q.black_can_castle_queenside ∧
     p.en_passant = q.en_passant)
    (by cases p; cases q; simp)

/-- Transport-free decidable equality on optional positions, so that
concrete make_move results evaluate by kernel reduction. -/
instance (priority := 2000) : DecidableEq (Option Position) := fun a b =>
  match a, b with
  | none, none => isTrue rfl
  | some p, some q => decidable_of_iff (p = q) (by simp)
  | none, some _ => isFalse (by simp)
  | some _, none => isFalse (by simp)

/-- Row constant of position.rs (rank 1 is row index 7). -/
def ROW_1 : Fin 8 := 7

/-- Row constant of position.rs. -/
def ROW_2 : Fin 8 := 6

/-- Row constant of position.rs. -/
def ROW_4 : Fin 8 := 4

/-- Row constant of position.rs. -/
def ROW_5 : Fin 8 := 3

/-- Row constant of position.rs. -/
def ROW_7 : Fin 8 := 1

/-- Row constant of position.rs (rank 8 is row index 0). -/
def ROW_8 : Fin 8 := 0

/-- Column constant of position.rs (file a). -/
def COL_A : Fin 8 := 0

/-- Column constant of position.rs (file c). -/
def COL_C : Fin 8 := 2

/-- Column constant of position.rs (file d). -/
def COL_D : Fin 8 := 3

/-- Column constant of position.rs (file e). -/
def COL_E : Fin 8 := 4

/-- Column constant of position.rs (file f). -/
def COL_F : Fin 8 := 5

/-- Column constant of position.rs (file g). -/
def COL_G : Fin 8 := 6

/-- Column constant of position.rs (file h). -/
def COL_H : Fin 8 := 7

/-- Move application, from Position::make_move in position.rs, with the
source's statement order preserved: clear the source, derive the halfmove
clock from the destination as it stands after that clearing, write the
moving cell to the destination, then run the piece-specific bookkeeping
(en-passant removal and promotion for pawns, castling-right revocation for
rooks, right clearing plus rook relocation for kings), recompute the
en-passant target and flip the side to move.  The halfmove clock is a
Rust u32, so its increment is taken modulo 2^32, the release-build
wrapping semantics (a debug build would abort at the maximum instead; in
neither build does the field ever exceed the u32 range).  The two Rust
panics (empty source square; promotion_type.unwrap() with a pawn on the
back rank) are modelled as none. -/
def make_move (p : Position) (src dst : Fin 8 × Fin 8)
    (promotion_type : Option PieceType) : Option Position :=
  let src_row := src.1
  let src_col := src.2
  let dst_row := dst.1
  let dst_col := dst.2
  let src_cell := p.cells src_row src_col
  let cells0 := setCell p.cells src_row src_col Cell.Empty
  let new_clock : Nat :=
    if cells0 dst_row dst_col = Cell.Empty then
      (p.halfmove_clock + 1) % 4294967296
    else 0
  let cells1 := setCell cells0 dst_row dst_col src_cell
  match src_cell with
  | Cell.Empty => none
  | Cell.Piece piece_type color =>
    match piece_type with
    | PieceType.Pawn =>
      let ep_after : Option (Nat × Nat) :=
        if src_row = ROW_2 ∧ dst_row = ROW_4 then
          some (dst_row.val + 1, dst_col.val)
        else if src_row = ROW_7 ∧ dst_row = ROW_5 then
          some (dst_row.val - 1, dst_col.val)
        else
          none
      let cells2 :=
        match p.en_passant with
        | some (ep_row, ep_col) =>
          if dst_row.val = ep_row ∧ dst_col.val = ep_col then
            setCell cells1 src_row dst_col Cell.Empty
          else cells1
        | none => cells1
      if dst_row = ROW_1 ∨ dst_row = ROW_8 then
        match promotion_type with
        | none => none
        | some t =>
          some { p with
                 cells := setCell cells2 dst_row dst_col (Cell.Piece t color),
                 halfmove_clock := 0,
                 en_passant := ep_after,
                 side_to_move := opposite_color p.side_to_move }
      else
        some { p with
               cells := cells2,
               halfmove_clock := 0,
               en_passant := ep_after,
               side_to_move := opposite_color p.side_to_move }
    | PieceType.Rook =>
      some { p with
             cells := cells1,
             halfmove_clock := new_clock,
             white_can_castle_queenside :=
               if src_row = ROW_1 ∧ src_col = COL_A then false
               else p.white_can_castle_queenside,
             white_can_castle_kingside :=
               if src_row = ROW_1 ∧ src_col = COL_H then false
               else p.white_can_castle_kingside,
             black_can_castle_queenside :=
               if src_row = ROW_8 ∧ src_col = COL_A then false
               else p.black_can_castle_queenside,
             black_can_castle_kingside :=
               if src_row = ROW_8 ∧ src_col = COL_H then false
               else p.black_can_castle_kingside,
             en_passant := none,
             side_to_move := opposite_color p.side_to_move }
    | PieceType.King =>
      let cells2 :=
        if src_col = COL_E then
          if dst_col = COL_G then
            let rook := cells1 src_row COL_H
            setCell (setCell cells1 src_row COL_H Cell.Empty) src_row COL_F rook
          else if src_col = COL_E ∧ dst_col = COL_C then
            let rook := cells1 src_row COL_A
            setCell (setCell cells1 src_row COL_A Cell.Empty) src_row COL_D rook
          else cells1
        else cells1
      match color with
      | Color.White =>
        some { p with
               cells := cells2,
               halfmove_clock := new_clock,
               white_can_castle_kingside := false,
               white_can_castle_queenside := false,
               en_passant := none,
               side_to_move := opposite_color p.side_to_move }
      | Color.Black =>
        some { p with
               cells := cells2,
               halfmove_clock := new_clock,
               black_can_castle_kingside := false,
               black_can_castle_queenside := false,
               en_passant := none,
               side_to_move := opposite_color p.side_to_move }
    | _ =>
      some { p with
             cells := cells1,
             halfmove_clock := new_clock,
             en_passant := none,
             side_to_move := opposite_color p.side_to_move }

/-- Splits a character list at every occurrence of the separator, keeping
empty segments, as Regex field separation does on the FEN grammar (the
separator characters never occur inside any field's character class). -/
def splitOnChar (sep : Char) : List Char → List (List Char)
  | [] => [[]]
  | c :: cs =>
    let r := splitOnChar sep cs
    if c = sep then [] :: r
    else
      match r with
      | [] => [[c]]
      | h :: t => (c :: h) :: t

/-- The twelve piece letters of the FEN character class in position.rs. -/
def isPieceChar (c : Char) : Bool :=
  c = 'P' || c = 'p' || c = 'N' || c = 'n' || c = 'B' || c = 'b' ||
  c = 'R' || c = 'r' || c = 'Q' || c = 'q' || c = 'K' || c = 'k'

/-- Digits 1-8 of the FEN rank character class. -/
def isRankDigit (c : Char) : Bool :=
  c = '1' || c = '2' || c = '3' || c = '4' ||
  c = '5' || c = '6' || c = '7' || c = '8'

/-- One character of a FEN rank description: piece letter or digit 1-8. -/
def isRankChar (c : Char) : Bool :=
  isPieceChar c || isRankDigit c

/-- One character of the castling field: K, Q, k or q. -/
def isCastlingChar (c : Char) : Bool :=
  c = 'K' || c = 'Q' || c = 'k' || c = 'q'

/-- File letter a-h of the en-passant field. -/
def isFileChar (c : Char) : Bool :=
  c = 'a' || c = 'b' || c = 'c' || c = 'd' ||
  c = 'e' || c = 'f' || c = 'g' || c = 'h'

/-- Rust char::to_digit(10): the numeric value of a decimal digit. -/
def to_digit10 (c : Char) : Option Nat :=
  if c.isDigit then some (c.toNat - 48) else none

/-- The piece-letter decoding match of read_board_data in position.rs;
none models the cannot-get-here panic for an unrecognized letter. -/
def charToCell (c : Char) : Option Cell :=
  if c = 'P' then some (Cell.Piece PieceType.Pawn Color.White)
  else if c = 'p' then some (Cell.Piece PieceType.Pawn Color.Black)
  else if c = 'N' then some (Cell.Piece PieceType.Knight Color.White)
  else if c = 'n' then some (Cell.Piece PieceType.Knight Color.Black)
  else if c = 'B' then some (Cell.Piece PieceType.Bishop Color.White)
  else if c = 'b' then some (Cell.Piece PieceType.Bishop Color.Black)
  else if c = 'R' then some (Cell.Piece PieceType.Rook Color.White)
  else if c = 'r' then some (Cell.Piece PieceType.Rook Color.Black)
  else if c = 'Q' then some (Cell.Piece PieceType.Queen Color.White)
  else if c = 'q' then some (Cell.Piece PieceType.Queen Color.Black)
  else if c = 'K' then some (Cell.Piece PieceType.King Color.White)
  else if c = 'k' then some (Cell.Piece PieceType.King Color.Black)
  else none

/-- The inner loop of read_board_data in position.rs over one rank
description: a digit advances the column cursor, a piece letter is stored
and advances it by one.  The letter value is computed first (its
cannot-get-here panic) and the store cells[row][col] then aborts when the
column index is out of bounds; both aborts are none. -/
def read_rank : List Char → Nat → (Fin 8 → Cell) → Option (Fin 8 → Cell)
  | [], _, acc => some acc
  | c :: cs, col, acc =>
    match to_digit10 c with
    | some d => read_rank cs (col + d) acc
    | none =>
      match charToCell c with
      | some cell =>
        if h : col < 8 then
          read_rank cs (col + 1) (fun j => if j = ⟨col, h⟩ then cell else acc j)
        else none
      | none => none

/-- The fn read_board_data of position.rs: decode the eight captured rank
descriptions into the 8x8 grid, starting from an all-Empty array; none is
the index-out-of-bounds abort (rows write disjoint cells, so decoding each
rank independently is the same as threading one array through). -/
def read_board_data : List (List Char) → Option Board
  | [r1, r2, r3, r4, r5, r6, r7, r8] =>
    (read_rank r1 0 (fun _ => Cell.Empty)).bind fun w1 =>
    (read_rank r2 0 (fun _ => Cell.Empty)).bind fun w2 =>
    (read_rank r3 0 (fun _ => Cell.Empty)).bind fun w3 =>
    (read_rank r4 0 (fun _ => Cell.Empty)).bind fun w4 =>
    (read_rank r5 0 (fun _ => Cell.Empty)).bind fun w5 =>
    (read_rank r6 0 (fun _ => Cell.Empty)).bind fun w6 =>
    (read_rank r7 0 (fun _ => Cell.Empty)).bind fun w7 =>
    (read_rank r8 0 (fun _ => Cell.Empty)).map fun w8 =>
    fun i =>
      if i = 0 then w1 else if i = 1 then w2 else if i = 2 then w3
      else if i = 3 then w4 else if i = 4 then w5 else if i = 5 then w6
      else if i = 6 then w7 else w8
  | _ => none

/-- The fn parse_algebraic_coords of position.rs: file letter to column,
rank digit to row (rank 1 is row 7); the two iterator unwraps panic on a
string shorter than two characters, modelled as none.  (The FEN grammar
only ever passes two-character squares, where the Rust usize subtractions
also cannot underflow.) -/
def parse_algebraic_coords : List Char → Option (Nat × Nat)
  | c1 :: c2 :: _ =>
    some (7 - (c2.toNat - '1'.toNat), c1.toNat - 'a'.toNat)
  | _ => none

/-- Value of a decimal digit string, as Rust str::parse computes it. -/
def natOfDigits (l : List Char) : Nat :=
  l.foldl (fun n c => n * 10 + (c.toNat - '0'.toNat)) 0

/-- The board field of the FEN grammar: eight slash-separated nonempty
runs of rank characters. -/
def boardFieldOk (b : List Char) : Bool :=
  match splitOnChar '/' b with
  | [r1, r2, r3, r4, r5, r6, r7, r8] =>
    (!r1.isEmpty && r1.all isRankChar) && (!r2.isEmpty && r2.all isRankChar) &&
    (!r3.isEmpty && r3.all isRankChar) && (!r4.isEmpty && r4.all isRankChar) &&
    (!r5.isEmpty && r5.all isRankChar) && (!r6.isEmpty && r6.all isRankChar) &&
    (!r7.isEmpty && r7.all isRankChar) && (!r8.isEmpty && r8.all isRankChar)
  | _ => false

/-- The side-to-move field: w or b. -/
def stmFieldOk (l : List Char) : Bool :=
  l = ['w'] || l = ['b']

/-- The castling field: a dash, or a nonempty run over K, Q, k, q. -/
def castlingFieldOk (l : List Char) : Bool :=
  l = ['-'] || (!l.isEmpty && l.all isCastlingChar)

/-- The en-passant field: a dash, or a file letter followed by a rank
digit. -/
def epFieldOk (l : List Char) : Bool :=
  l = ['-'] ||
  (match l with
   | [c1, c2] => isFileChar c1 && isRankDigit c2
   | _ => false)

/-- A nonempty decimal digit run. -/
def numFieldOk (l : List Char) : Bool :=
  !l.isEmpty && l.all Char.isDigit

/-- Recognizer for the language of the anchored FEN regex of position.rs.
Every separator (space between fields, slash between ranks) lies outside
every field's character class, so a string matches the regex exactly when
splitting it at spaces yields six fields of the respective shapes, the
first of which splits at slashes into eight well-formed rank runs. -/
def matchesFen (s : String) : Bool :=
  match splitOnChar ' ' s.toList with
  | [b, stm, ca, ep, hmc, mvn] =>
    boardFieldOk b && stmFieldOk stm && castlingFieldOk ca &&
    epFieldOk ep && numFieldOk hmc && numFieldOk mvn
  | _ => false

/-- The distinguishable abort causes of Position::from_fen in position.rs:
the explicit invalid-FEN panic on a regex mismatch, the unwrap panic when
the halfmove-clock digits exceed the u32 range, and the index panic inside
read_board_data when a rank description overflows the eighth column. -/
inductive FenError where
  | parseError
  | clockOverflow
  | indexOutOfBounds
deriving DecidableEq

/-- The fn Position::from_fen of position.rs: match the FEN regex (panic
on mismatch), read side to move, parse the halfmove clock into a u32
(unwrap panics at 2^32), parse the en-passant square, then decode the
board (index panic on an overfull rank) and assemble the Position.  The
fullmove-number field is matched but discarded. -/
def from_fen (fen : String) : Except FenError Position :=
  if matchesFen fen then
    match splitOnChar ' ' fen.toList with
    | [b, stm, ca, ep, hmc, _mvn] =>
      let side_to_move := if stm = ['w'] then Color.White else Color.Black
      let n := natOfDigits hmc
      if n < 4294967296 then
        let epv : Option (Option (Nat × Nat)) :=
          if ep = ['-'] then some none
          else Option.map some (parse_algebraic_coords ep)
        match epv with
        | some en_passant =>
          match read_board_data (splitOnChar '/' b) with
          | some cells =>
            Except.ok
              { cells := cells,
                side_to_move := side_to_move,
                halfmove_clock := n,
                white_can_castle_kingside := ca.contains 'K',
                white_can_castle_queenside := ca.contains 'Q',
                black_can_castle_kingside := ca.contains 'k',
                black_can_castle_queenside := ca.contains 'q',
                en_passant := en_passant }
          | none => Except.error FenError.indexOutOfBounds
        | none => Except.error FenError.parseError
      else Except.error FenError.clockOverflow
    | _ => Except.error FenError.parseError
  else Except.error FenError.parseError

/-- A rank description places a piece letter at column 8 or beyond, the
acknowledged gap of the FEN decoder: exactly these ranks make
read_board_data abort on an out-of-bounds index. -/
def rankOverflow : List Char → Nat → Bool
  | [], _ => false
  | c :: cs, col =>
    match to_digit10 c with
    | some d => rankOverflow cs (col + d)
    | none => if col < 8 then rankOverflow cs (col + 1) else true

/-- Transport-free decidable equality on from_fen results, so that
concrete decoding outcomes evaluate by kernel reduction. -/
instance (priority := 2000) : DecidableEq (Except FenError Position) := fun a b =>
  match a, b with
  | Except.error e, Except.error f => decidable_of_iff (e = f) (by simp)
  | Except.ok p, Except.ok q => decidable_of_iff (p = q) (by simp)
  | Except.error _, Except.ok _ => isFalse (by simp)
  | Except.ok _, Except.error _ => isFalse (by simp)

/-- The all-Empty fallback board. -/
def emptyBoard : Board := fun _ _ => Cell.Empty

/-- Fallback Position used only to make FEN extraction total in concrete
witnesses. -/
def fallbackPosition : Position :=
  { cells := emptyBoard,
    side_to_move := Color.White,
    halfmove_clock := 0,
    white_can_castle_kingside := false,
    white_can_castle_queenside := false,
    black_can_castle_kingside := false,
    black_can_castle_queenside := false,
    en_passant := none }

/-- The Position decoded from a FEN string, defaulting on failure; used to
name concrete positions in witnesses. -/
def posOfFen (s : String) : Position :=
  match from_fen s with
  | Except.ok p => p
  | Except.error _ => fallbackPosition

/-- The grid after the two unconditional writes of make_move: source
cleared, then the moving cell written to the destination. -/
def baseCells (p : Position) (sr sc dr dc : Fin 8) (cell : Cell) : Board :=
  setCell (setCell p.cells sr sc Cell.Empty) dr dc cell

/-- The halfmove clock make_move derives before any pawn override:
destination empty after the source clearing means the wrapping u32
increment, otherwise reset. -/
def baseClock (p : Position) (sr sc dr dc : Fin 8) : Nat :=
  if setCell p.cells sr sc Cell.Empty dr dc = Cell.Empty then
    (p.halfmove_clock + 1) % 4294967296
  else 0

/-- The grid a pawn move leaves before any promotion: the base writes,
plus the en-passant removal at (source row, destination column) when the
destination is the recorded en-passant target. -/
def pawnEpCells (p : Position) (sr sc dr dc : Fin 8) (cell : Cell) : Board :=
  match p.en_passant with
  | some (er, ec) =>
    if dr.val = er ∧ dc.val = ec then
      setCell (baseCells p sr sc dr dc cell) sr dc Cell.Empty
    else baseCells p sr sc dr dc cell
  | none => baseCells p sr sc dr dc cell

/-- The en-passant target make_move records after a pawn move. -/
def pawnEpAfter (sr dr dc : Fin 8) : Option (Nat × Nat) :=
  if sr = ROW_2 ∧ dr = ROW_4 then some (dr.val + 1, dc.val)
  else if sr = ROW_7 ∧ dr = ROW_5 then some (dr.val - 1, dc.val)
  else none

/-- The grid a king move leaves: the base writes, plus the rook
relocation when the file transition is e to g or e to c. -/
def kingCells (p : Position) (sr sc dr dc : Fin 8) (c : Color) : Board :=
  let cells1 := baseCells p sr sc dr dc (Cell.Piece PieceType.King c)
  if sc = COL_E then
    if dc = COL_G then
      setCell (setCell cells1 sr COL_H Cell.Empty) sr COL_F (cells1 sr COL_H)
    else if sc = COL_E ∧ dc = COL_C then
      setCell (setCell cells1 sr COL_A Cell.Empty) sr COL_D (cells1 sr COL_A)
    else cells1
  else cells1

example :
    make_move (posOfFen "rnbqkbnr/pppppppp/8/8/8/8/PPPPPPPP/RNBQKBNR w KQkq - 0 1")
      (6, 4) (4, 4) none =
    some (posOfFen "rnbqkbnr/pppppppp/8/8/4P3/8/PPPP1PPP/RNBQKBNR b KQkq e3 0 1") := by
  decide

theorem setCell_self (cells : Board) (r c : Fin 8) (v : Cell) :
    setCell cells r c v r c = v := by
  simp [setCell]

theorem setCell_other (cells : Board) (r c i j : Fin 8) (v : Cell)
    (h : ¬(i = r ∧ j = c)) :
    setCell cells r c v i j = cells i j := by
  simp only [setCell, if_neg h]

theorem make_move_src_empty (p : Position) (sr sc dr dc : Fin 8)
    (promo : Option PieceType) (h : p.cells sr sc = Cell.Empty) :
    make_move p (sr, sc) (dr, dc) promo = none := by
  simp [make_move, h]

theorem make_move_pawn_back_unwrap (p : Position) (sr sc dr dc : Fin 8)
    (c : Color) (h : p.cells sr sc = Cell.Piece PieceType.Pawn c)
    (hb : dr = ROW_1 ∨ dr = ROW_8) :
    make_move p (sr, sc) (dr, dc) none = none := by
  simp only [make_move, h]
  rw [if_pos hb]

theorem make_move_pawn_back_promo (p : Position) (sr sc dr dc : Fin 8)
    (c : Color) (t : PieceType) (h : p.cells sr sc = Cell.Piece PieceType.Pawn c)
    (hb : dr = ROW_1 ∨ dr = ROW_8) :
    make_move p (sr, sc) (dr, dc) (some t) = some
      { p with
        cells := setCell (pawnEpCells p sr sc dr dc (Cell.Piece PieceType.Pawn c))
                   dr dc (Cell.Piece t c),
        halfmove_clock := 0,
        en_passant := pawnEpAfter sr dr dc,
        side_to_move := opposite_color p.side_to_move } := by
  simp only [make_move, h]
  rw [if_pos hb]
  simp [pawnEpCells, pawnEpAfter, baseCells]

theorem make_move_pawn_mid (p : Position) (sr sc dr dc : Fin 8)
    (c : Color) (promo : Option PieceType)
    (h : p.cells sr sc = Cell.Piece PieceType.Pawn c)
    (hnb : ¬(dr = ROW_1 ∨ dr = ROW_8)) :
    make_move p (sr, sc) (dr, dc) promo = some
      { p with
        cells := pawnEpCells p sr sc dr dc (Cell.Piece PieceType.Pawn c),
        halfmove_clock := 0,
        en_passant := pawnEpAfter sr dr dc,
        side_to_move := opposite_color p.side_to_move } := by
  simp only [make_move, h]
  rw [if_neg hnb]
  simp [pawnEpCells, pawnEpAfter, baseCells]

theorem make_move_rook (p : Position) (sr sc dr dc : Fin 8)
    (c : Color) (promo : Option PieceType)
    (h : p.cells sr sc = Cell.Piece PieceType.Rook c) :
    make_move p (sr, sc) (dr, dc) promo = some
      { p with
        cells := baseCells p sr sc dr dc (Cell.Piece PieceType.Rook c),
        halfmove_clock := baseClock p sr sc dr dc,
        white_can_castle_queenside :=
          if sr = ROW_1 ∧ sc = COL_A then false else p.white_can_castle_queenside,
        white_can_castle_kingside :=
          if sr = ROW_1 ∧ sc = COL_H then false else p.white_can_castle_kingside,
        black_can_castle_queenside :=
          if sr = ROW_8 ∧ sc = COL_A then false else p.black_can_castle_queenside,
        black_can_castle_kingside :=
          if sr = ROW_8 ∧ sc = COL_H then false else p.black_can_castle_kingside,
        en_passant := none,
        side_to_move := opposite_color p.side_to_move } := by
  simp [make_move, h, baseCells, baseClock]

theorem make_move_king (p : Position) (sr sc dr dc : Fin 8)
    (c : Color) (promo : Option PieceType)
    (h : p.cells sr sc = Cell.Piece PieceType.King c) :
    make_move p (sr, sc) (dr, dc) promo = some
      { p with
        cells := kingCells p sr sc dr dc c,
        halfmove_clock := baseClock p sr sc dr dc,
        white_can_castle_kingside :=
          if c = Color.White then false else p.white_can_castle_kingside,
        white_can_castle_queenside :=
          if c = Color.White then false else p.white_can_castle_queenside,
        black_can_castle_kingside :=
          if c = Color.Black then false else p.black_can_castle_kingside,
        black_can_castle_queenside :=
          if c = Color.Black then false else p.black_can_castle_queenside,
        en_passant := none,
        side_to_move := opposite_color p.side_to_move } := by
  cases c <;> simp [make_move, h, kingCells, baseCells, baseClock]

theorem make_move_minor (p : Position) (sr sc dr dc : Fin 8)
    (t : PieceType) (c : Color) (promo : Option PieceType)
    (h : p.cells sr sc = Cell.Piece t c)
    (ht : t = PieceType.Knight ∨ t = PieceType.Bishop ∨ t = PieceType.Queen) :
    make_move p (sr, sc) (dr, dc) promo = some
      { p with
        cells := baseCells p sr sc dr dc (Cell.Piece t c),
        halfmove_clock := baseClock p sr sc dr dc,
        en_passant := none,
        side_to_move := opposite_color p.side_to_move } := by
  rcases ht with rfl | rfl | rfl <;> simp [make_move, h, baseCells, baseClock]

/-- C1 counterexample: the halfmove-clock field is a u32 and its
non-capture increment overflows at the maximum.  The clock value
4294967295 is reachable through from_fen; a non-capture knight move from
that position leaves clock 0 (the u32 wrap; a debug build would abort
instead), never the claim's previous clock plus one, which the u32 field
could not even hold. -/
theorem halfmove_clock_wrap_cex :
    (posOfFen "k7/8/8/8/8/8/8/K6N w - - 4294967295 1").halfmove_clock =
      4294967295 ∧
    (posOfFen "k7/8/8/8/8/8/8/K6N w - - 4294967295 1").cells 7 7 =
      Cell.Piece PieceType.Knight Color.White ∧
    setCell (posOfFen "k7/8/8/8/8/8/8/K6N w - - 4294967295 1").cells
      7 7 Cell.Empty 5 6 = Cell.Empty ∧
    Option.map Position.halfmove_clock
      (make_move (posOfFen "k7/8/8/8/8/8/8/K6N w - - 4294967295 1")
        (7, 7) (5, 6) none) = some 0 ∧
    (0 : Nat) ≠ 4294967295 + 1 :=
  ⟨by decide, by decide, by decide, by decide, by decide⟩

/-- C1 as amended: after a make_move call on a Position whose source
square holds a piece, the halfmove clock is 0 when the moving piece is a
pawn or the destination square was occupied before the overwrite
(make_move samples the destination after the source clearing of step 1,
which is the state right before the overwrite of step 3), and for every
non-capture move of a non-pawn piece it is the previous clock plus one
reduced modulo 2^32 — equal to the previous clock plus one whenever the
previous clock is below the u32 maximum 4294967295, the wrap at the
maximum being what the counterexample forces. -/
theorem halfmove_clock_update (p : Position) (sr sc dr dc : Fin 8)
    (promo : Option PieceType) (q : Position)
    (hq : make_move p (sr, sc) (dr, dc) promo = some q) :
    (((∃ c, p.cells sr sc = Cell.Piece PieceType.Pawn c) ∨
        setCell p.cells sr sc Cell.Empty dr dc ≠ Cell.Empty) →
      q.halfmove_clock = 0) ∧
    (((∀ c, p.cells sr sc ≠ Cell.Piece PieceType.Pawn c) ∧
        setCell p.cells sr sc Cell.Empty dr dc = Cell.Empty) →
      q.halfmove_clock = (p.halfmove_clock + 1) % 4294967296 ∧
      (p.halfmove_clock < 4294967295 →
        q.halfmove_clock = p.halfmove_clock + 1)) := by
  cases hcell : p.cells sr sc with
  | Empty =>
    rw [make_move_src_empty p sr sc dr dc promo hcell] at hq
    exact absurd hq (by simp)
  | Piece t c =>
    have hclock : q.halfmove_clock =
        if t = PieceType.Pawn then 0 else baseClock p sr sc dr dc := by
      cases t with
      | Pawn =>
        by_cases hb : dr = ROW_1 ∨ dr = ROW_8
        · cases promo with
          | none =>
            rw [make_move_pawn_back_unwrap p sr sc dr dc c hcell hb] at hq
            exact absurd hq (by simp)
          | some t' =>
            rw [make_move_pawn_back_promo p sr sc dr dc c t' hcell hb] at hq
            have h2 := Option.some.inj hq
            subst h2
            simp
        · rw [make_move_pawn_mid p sr sc dr dc c promo hcell hb] at hq
          have h2 := Option.some.inj hq
          subst h2
          simp
      | Rook =>
        rw [make_move_rook p sr sc dr dc c promo hcell] at hq
        have h2 := Option.some.inj hq
        subst h2
        simp
      | King =>
        rw [make_move_king p sr sc dr dc c promo hcell] at hq
        have h2 := Option.some.inj hq
        subst h2
        simp
      | Knight =>
        rw [make_move_minor p sr sc dr dc _ c promo hcell (Or.inl rfl)] at hq
        have h2 := Option.some.inj hq
        subst h2
        simp
      | Bishop =>
        rw [make_move_minor p sr sc dr dc _ c promo hcell (Or.inr (Or.inl rfl))] at hq
        have h2 := Option.some.inj hq
        subst h2
        simp
      | Queen =>
        rw [make_move_minor p sr sc dr dc _ c promo hcell (Or.inr (Or.inr rfl))] at hq
        have h2 := Option.some.inj hq
        subst h2
        simp
    constructor
    · rintro (⟨c', hc'⟩ | hocc)
      · injection hc' with h1 h2
        rw [hclock, if_pos h1]
      · rw [hclock]
        split
        · rfl
        · rw [baseClock, if_neg hocc]
    · rintro ⟨hnp, hocc⟩
      have ht : t ≠ PieceType.Pawn := fun h => hnp c (by rw [h])
      rw [hclock, if_neg ht, baseClock, if_pos hocc]
      exact ⟨rfl, fun hlt => Nat.mod_eq_of_lt (by omega)⟩

/-- C1 witness: in the concrete opening move e2 to e4 from the standard
starting position the moving piece is a pawn and the clock afterwards is
zero. -/
theorem halfmove_clock_update_witness :
    (posOfFen "rnbqkbnr/pppppppp/8/8/4P3/8/PPPP1PPP/RNBQKBNR b KQkq e3 0 1").halfmove_clock
      = 0 :=
  (halfmove_clock_update
    (posOfFen "rnbqkbnr/pppppppp/8/8/8/8/PPPPPPPP/RNBQKBNR w KQkq - 0 1")
    6 4 4 4 none
    (posOfFen "rnbqkbnr/pppppppp/8/8/4P3/8/PPPP1PPP/RNBQKBNR b KQkq e3 0 1")
    (by decide)).1
    (Or.inl ⟨Color.White, by decide⟩)

/-- C7: when make_move moves a pawn of color c to the first or eighth
rank with a supplied promotion type t, the destination cell afterwards is
Piece t c, for every piece type and both colors; in particular the
concrete knight underpromotion scenario of the spec holds. -/
theorem promotion_replaces_pawn (p : Position) (sr sc dr dc : Fin 8)
    (t : PieceType) (c : Color) (q : Position)
    (hcell : p.cells sr sc = Cell.Piece PieceType.Pawn c)
    (hback : dr = ROW_1 ∨ dr = ROW_8)
    (hq : make_move p (sr, sc) (dr, dc) (some t) = some q) :
    q.cells dr dc = Cell.Piece t c ∧
    make_move (posOfFen "k7/4P3/8/8/8/8/8/K7 w - - 0 1") (1, 4) (0, 4)
        (some PieceType.Knight) =
      some (posOfFen "k3N3/8/8/8/8/8/8/K7 b - - 0 1") := by
  refine ⟨?_, by decide⟩
  rw [make_move_pawn_back_promo p sr sc dr dc c t hcell hback] at hq
  have h2 := Option.some.inj hq
  subst h2
  exact setCell_self _ _ _ _

/-- C7 witness: the knight underpromotion scenario instantiates the
theorem; the destination cell of the resulting position is the white
knight. -/
theorem promotion_replaces_pawn_witness :
    (posOfFen "k3N3/8/8/8/8/8/8/K7 b - - 0 1").cells 0 4 =
      Cell.Piece PieceType.Knight Color.White :=
  (promotion_replaces_pawn (posOfFen "k7/4P3/8/8/8/8/8/K7 w - - 0 1")
    1 4 0 4 PieceType.Knight Color.White
    (posOfFen "k3N3/8/8/8/8/8/8/K7 b - - 0 1")
    (by decide) (Or.inr (by decide)) (by decide)).1

/-- C8: with in-bounds squares, make_move aborts exactly when the source
square is empty or a pawn reaches the first or eighth rank with no
promotion type supplied; in every other situation it completes. -/
theorem make_move_abort_iff (p : Position) (sr sc dr dc : Fin 8)
    (promo : Option PieceType) :
    make_move p (sr, sc) (dr, dc) promo = none ↔
      (p.cells sr sc = Cell.Empty ∨
        ((∃ c, p.cells sr sc = Cell.Piece PieceType.Pawn c) ∧
          (dr = ROW_1 ∨ dr = ROW_8) ∧ promo = none)) := by
  cases hcell : p.cells sr sc with
  | Empty => simp [make_move_src_empty p sr sc dr dc promo hcell]
  | Piece t c =>
    cases t with
    | Pawn =>
      by_cases hb : dr = ROW_1 ∨ dr = ROW_8
      · cases promo with
        | none =>
          simp [make_move_pawn_back_unwrap p sr sc dr dc c hcell hb, hb]
        | some t' =>
          simp [make_move_pawn_back_promo p sr sc dr dc c t' hcell hb]
      · simp [make_move_pawn_mid p sr sc dr dc c promo hcell hb, hb]
    | Rook => simp [make_move_rook p sr sc dr dc c promo hcell]
    | King => simp [make_move_king p sr sc dr dc c promo hcell]
    | Knight => simp [make_move_minor p sr sc dr dc _ c promo hcell (Or.inl rfl)]
    | Bishop =>
      simp [make_move_minor p sr sc dr dc _ c promo hcell (Or.inr (Or.inl rfl))]
    | Queen =>
      simp [make_move_minor p sr sc dr dc _ c promo hcell (Or.inr (Or.inr rfl))]

/-- C9: across every completing make_move call each castling-right
boolean only ever transitions from true to false: a right that is false
beforehand is still false afterwards. -/
theorem castling_rights_monotone (p : Position) (sr sc dr dc : Fin 8)
    (promo : Option PieceType) (q : Position)
    (hq : make_move p (sr, sc) (dr, dc) promo = some q) :
    (p.white_can_castle_kingside = false → q.white_can_castle_kingside = false) ∧
    (p.white_can_castle_queenside = false → q.white_can_castle_queenside = false) ∧
    (p.black_can_castle_kingside = false → q.black_can_castle_kingside = false) ∧
    (p.black_can_castle_queenside = false → q.black_can_castle_queenside = false) := by
  cases hcell : p.cells sr sc with
  | Empty =>
    rw [make_move_src_empty p sr sc dr dc promo hcell] at hq
    exact absurd hq (by simp)
  | Piece t c =>
    cases t with
    | Pawn =>
      by_cases hb : dr = ROW_1 ∨ dr = ROW_8
      · cases promo with
        | none =>
          rw [make_move_pawn_back_unwrap p sr sc dr dc c hcell hb] at hq
          exact absurd hq (by simp)
        | some t' =>
          rw [make_move_pawn_back_promo p sr sc dr dc c t' hcell hb] at hq
          have h2 := Option.some.inj hq
          subst h2
          exact ⟨id, id, id, id⟩
      · rw [make_move_pawn_mid p sr sc dr dc c promo hcell hb] at hq
        have h2 := Option.some.inj hq
        subst h2
        exact ⟨id, id, id, id⟩
    | Rook =>
      rw [make_move_rook p sr sc dr dc c promo hcell] at hq
      have h2 := Option.some.inj hq
      subst h2
      refine ⟨fun h => ?_, fun h => ?_, fun h => ?_, fun h => ?_⟩ <;> simp [h]
    | King =>
      rw [make_move_king p sr sc dr dc c promo hcell] at hq
      have h2 := Option.some.inj hq
      subst h2
      refine ⟨fun h => ?_, fun h => ?_, fun h => ?_, fun h => ?_⟩ <;> simp [h]
    | Knight =>
      rw [make_move_minor p sr sc dr dc _ c promo hcell (Or.inl rfl)] at hq
      have h2 := Option.some.inj hq
      subst h2
      exact ⟨id, id, id, id⟩
    | Bishop =>
      rw [make_move_minor p sr sc dr dc _ c promo hcell (Or.inr (Or.inl rfl))] at hq
      have h2 := Option.some.inj hq
      subst h2
      exact ⟨id, id, id, id⟩
    | Queen =>
      rw [make_move_minor p sr sc dr dc _ c promo hcell (Or.inr (Or.inr rfl))] at hq
      have h2 := Option.some.inj hq
      subst h2
      exact ⟨id, id, id, id⟩

/-- C9 witness: from a rights-free position, a king move keeps the white
kingside right false. -/
theorem castling_rights_monotone_witness :
    (posOfFen "k7/8/8/8/8/8/8/1K6 b - - 1 1").white_can_castle_kingside = false :=
  (castling_rights_monotone (posOfFen "k7/8/8/8/8/8/8/K7 w - - 0 1")
    7 0 7 1 none (posOfFen "k7/8/8/8/8/8/8/1K6 b - - 1 1") (by decide)).1
    (by decide)

theorem setCell_ne_col (cells : Board) (r c i j : Fin 8) (v : Cell)
    (h : j ≠ c) : setCell cells r c v i j = cells i j :=
  setCell_other cells r c i j v (fun hc => h hc.2)

theorem setCell_ne_row (cells : Board) (r c i j : Fin 8) (v : Cell)
    (h : i ≠ r) : setCell cells r c v i j = cells i j :=
  setCell_other cells r c i j v (fun hc => h hc.1)

/-- C4: a completing make_move call whose moving piece is a king of color
c clears both castling rights of c, and when the file transition is e to
g (respectively e to c) it relocates the piece standing on the h-file
(respectively a-file) of the source rank to the f-file (respectively
d-file) of that rank; the concrete kingside-castling scenario of the spec
holds. -/
theorem king_move_effects (p : Position) (sr sc dr dc : Fin 8)
    (c : Color) (promo : Option PieceType) (q : Position)
    (hcell : p.cells sr sc = Cell.Piece PieceType.King c)
    (hq : make_move p (sr, sc) (dr, dc) promo = some q) :
    ((c = Color.White →
        q.white_can_castle_kingside = false ∧
        q.white_can_castle_queenside = false) ∧
     (c = Color.Black →
        q.black_can_castle_kingside = false ∧
        q.black_can_castle_queenside = false)) ∧
    (sc = COL_E ∧ dc = COL_G →
      q.cells sr COL_F = p.cells sr COL_H ∧ q.cells sr COL_H = Cell.Empty) ∧
    (sc = COL_E ∧ dc = COL_C →
      q.cells sr COL_D = p.cells sr COL_A ∧ q.cells sr COL_A = Cell.Empty) ∧
    (make_move (posOfFen "k7/8/8/8/8/8/8/4K2R w K - 0 1") (7, 4) (7, 6) none =
      some (posOfFen "k7/8/8/8/8/8/8/5RK1 b - - 1 1")) := by
  rw [make_move_king p sr sc dr dc c promo hcell] at hq
  have h2 := Option.some.inj hq
  subst h2
  refine ⟨⟨fun hc => ?_, fun hc => ?_⟩, ?_, ?_, by decide⟩
  · subst hc; exact ⟨rfl, rfl⟩
  · subst hc; exact ⟨rfl, rfl⟩
  · rintro ⟨rfl, rfl⟩
    constructor
    · show setCell
        (setCell (baseCells p sr COL_E dr COL_G (Cell.Piece PieceType.King c))
          sr COL_H Cell.Empty)
        sr COL_F
        (baseCells p sr COL_E dr COL_G (Cell.Piece PieceType.King c) sr COL_H)
        sr COL_F = p.cells sr COL_H
      rw [setCell_self, baseCells,
        setCell_ne_col _ _ _ _ _ _ (show (COL_H : Fin 8) ≠ COL_G from by decide),
        setCell_ne_col _ _ _ _ _ _ (show (COL_H : Fin 8) ≠ COL_E from by decide)]
    · show setCell
        (setCell (baseCells p sr COL_E dr COL_G (Cell.Piece PieceType.King c))
          sr COL_H Cell.Empty)
        sr COL_F
        (baseCells p sr COL_E dr COL_G (Cell.Piece PieceType.King c) sr COL_H)
        sr COL_H = Cell.Empty
      rw [setCell_ne_col _ _ _ _ _ _ (show (COL_H : Fin 8) ≠ COL_F from by decide),
        setCell_self]
  · rintro ⟨rfl, rfl⟩
    constructor
    · show setCell
        (setCell (baseCells p sr COL_E dr COL_C (Cell.Piece PieceType.King c))
          sr COL_A Cell.Empty)
        sr COL_D
        (baseCells p sr COL_E dr COL_C (Cell.Piece PieceType.King c) sr COL_A)
        sr COL_D = p.cells sr COL_A
      rw [setCell_self, baseCells,
        setCell_ne_col _ _ _ _ _ _ (show (COL_A : Fin 8) ≠ COL_C from by decide),
        setCell_ne_col _ _ _ _ _ _ (show (COL_A : Fin 8) ≠ COL_E from by decide)]
    · show setCell
        (setCell (baseCells p sr COL_E dr COL_C (Cell.Piece PieceType.King c))
          sr COL_A Cell.Empty)
        sr COL_D
        (baseCells p sr COL_E dr COL_C (Cell.Piece PieceType.King c) sr COL_A)
        sr COL_A = Cell.Empty
      rw [setCell_ne_col _ _ _ _ _ _ (show (COL_A : Fin 8) ≠ COL_D from by decide),
        setCell_self]

/-- C4 witness: instantiating the theorem on the concrete kingside
castling position, the resulting position has both white rights cleared
and the rook relocated from h1 to f1. -/
theorem king_move_effects_witness :
    ((posOfFen "k7/8/8/8/8/8/8/5RK1 b - - 1 1").white_can_castle_kingside = false ∧
     (posOfFen "k7/8/8/8/8/8/8/5RK1 b - - 1 1").white_can_castle_queenside = false) ∧
    (posOfFen "k7/8/8/8/8/8/8/5RK1 b - - 1 1").cells 7 5 =
      (posOfFen "k7/8/8/8/8/8/8/4K2R w K - 0 1").cells 7 7 :=
  have h := king_move_effects (posOfFen "k7/8/8/8/8/8/8/4K2R w K - 0 1")
    7 4 7 6 Color.White none (posOfFen "k7/8/8/8/8/8/8/5RK1 b - - 1 1")
    (by decide) (by decide)
  ⟨h.1.1 rfl, (h.2.1 ⟨by decide, by decide⟩).1⟩

/-- C5: a completing make_move call moving a rook out of a1, h1, a8 or h8
clears exactly the single corresponding castling right (white queenside,
white kingside, black queenside, black kingside) and leaves the other
three unchanged; conversely a move that captures an enemy rook standing
in place on its home square (the rook not being the moving piece) leaves
that square's castling right unchanged. -/
theorem rook_castling_rights (p : Position) (sr sc dr dc : Fin 8)
    (promo : Option PieceType) (q : Position)
    (hq : make_move p (sr, sc) (dr, dc) promo = some q) :
    (∀ c, p.cells sr sc = Cell.Piece PieceType.Rook c →
      ((sr = ROW_1 ∧ sc = COL_A →
          q.white_can_castle_queenside = false ∧
          q.white_can_castle_kingside = p.white_can_castle_kingside ∧
          q.black_can_castle_queenside = p.black_can_castle_queenside ∧
          q.black_can_castle_kingside = p.black_can_castle_kingside) ∧
       (sr = ROW_1 ∧ sc = COL_H →
          q.white_can_castle_kingside = false ∧
          q.white_can_castle_queenside = p.white_can_castle_queenside ∧
          q.black_can_castle_queenside = p.black_can_castle_queenside ∧
          q.black_can_castle_kingside = p.black_can_castle_kingside) ∧
       (sr = ROW_8 ∧ sc = COL_A →
          q.black_can_castle_queenside = false ∧
          q.white_can_castle_kingside = p.white_can_castle_kingside ∧
          q.white_can_castle_queenside = p.white_can_castle_queenside ∧
          q.black_can_castle_kingside = p.black_can_castle_kingside) ∧
       (sr = ROW_8 ∧ sc = COL_H →
          q.black_can_castle_kingside = false ∧
          q.white_can_castle_kingside = p.white_can_castle_kingside ∧
          q.white_can_castle_queenside = p.white_can_castle_queenside ∧
          q.black_can_castle_queenside = p.black_can_castle_queenside))) ∧
    (∀ t, p.cells sr sc = Cell.Piece t Color.Black → ¬(sr = dr ∧ sc = dc) →
      ((dr = ROW_1 ∧ dc = COL_A ∧
          p.cells dr dc = Cell.Piece PieceType.Rook Color.White →
        q.white_can_castle_queenside = p.white_can_castle_queenside) ∧
       (dr = ROW_1 ∧ dc = COL_H ∧
          p.cells dr dc = Cell.Piece PieceType.Rook Color.White →
        q.white_can_castle_kingside = p.white_can_castle_kingside))) ∧
    (∀ t, p.cells sr sc = Cell.Piece t Color.White → ¬(sr = dr ∧ sc = dc) →
      ((dr = ROW_8 ∧ dc = COL_A ∧
          p.cells dr dc = Cell.Piece PieceType.Rook Color.Black →
        q.black_can_castle_queenside = p.black_can_castle_queenside) ∧
       (dr = ROW_8 ∧ dc = COL_H ∧
          p.cells dr dc = Cell.Piece PieceType.Rook Color.Black →
        q.black_can_castle_kingside = p.black_can_castle_kingside))) := by
  refine ⟨?_, ?_, ?_⟩
  · intro c hcell
    rw [make_move_rook p sr sc dr dc c promo hcell] at hq
    have h2 := Option.some.inj hq
    subst h2
    refine ⟨?_, ?_, ?_, ?_⟩ <;> rintro ⟨rfl, rfl⟩ <;>
      simp [show (ROW_1 : Fin 8) ≠ ROW_8 from by decide,
        show (ROW_8 : Fin 8) ≠ ROW_1 from by decide,
        show (COL_A : Fin 8) ≠ COL_H from by decide,
        show (COL_H : Fin 8) ≠ COL_A from by decide]
  · intro t hcell hne
    cases t with
    | Pawn =>
      by_cases hb : dr = ROW_1 ∨ dr = ROW_8
      · cases promo with
        | none =>
          rw [make_move_pawn_back_unwrap p sr sc dr dc _ hcell hb] at hq
          exact absurd hq (by simp)
        | some t' =>
          rw [make_move_pawn_back_promo p sr sc dr dc _ t' hcell hb] at hq
          have h2 := Option.some.inj hq
          subst h2
          exact ⟨fun _ => rfl, fun _ => rfl⟩
      · rw [make_move_pawn_mid p sr sc dr dc _ promo hcell hb] at hq
        have h2 := Option.some.inj hq
        subst h2
        exact ⟨fun _ => rfl, fun _ => rfl⟩
    | Rook =>
      rw [make_move_rook p sr sc dr dc _ promo hcell] at hq
      have h2 := Option.some.inj hq
      subst h2
      constructor
      · rintro ⟨rfl, rfl, -⟩
        show (if sr = ROW_1 ∧ sc = COL_A then false else p.white_can_castle_queenside) = _
        rw [if_neg hne]
      · rintro ⟨rfl, rfl, -⟩
        show (if sr = ROW_1 ∧ sc = COL_H then false else p.white_can_castle_kingside) = _
        rw [if_neg hne]
    | King =>
      rw [make_move_king p sr sc dr dc _ promo hcell] at hq
      have h2 := Option.some.inj hq
      subst h2
      exact ⟨fun _ => rfl, fun _ => rfl⟩
    | Knight =>
      rw [make_move_minor p sr sc dr dc _ _ promo hcell (Or.inl rfl)] at hq
      have h2 := Option.some.inj hq
      subst h2
      exact ⟨fun _ => rfl, fun _ => rfl⟩
    | Bishop =>
      rw [make_move_minor p sr sc dr dc _ _ promo hcell (Or.inr (Or.inl rfl))] at hq
      have h2 := Option.some.inj hq
      subst h2
      exact ⟨fun _ => rfl, fun _ => rfl⟩
    | Queen =>
      rw [make_move_minor p sr sc dr dc _ _ promo hcell (Or.inr (Or.inr rfl))] at hq
      have h2 := Option.some.inj hq
      subst h2
      exact ⟨fun _ => rfl, fun _ => rfl⟩
  · intro t hcell hne
    cases t with
    | Pawn =>
      by_cases hb : dr = ROW_1 ∨ dr = ROW_8
      · cases promo with
        | none =>
          rw [make_move_pawn_back_unwrap p sr sc dr dc _ hcell hb] at hq
          exact absurd hq (by simp)
        | some t' =>
          rw [make_move_pawn_back_promo p sr sc dr dc _ t' hcell hb] at hq
          have h2 := Option.some.inj hq
          subst h2
          exact ⟨fun _ => rfl, fun _ => rfl⟩
      · rw [make_move_pawn_mid p sr sc dr dc _ promo hcell hb] at hq
        have h2 := Option.some.inj hq
        subst h2
        exact ⟨fun _ => rfl, fun _ => rfl⟩
    | Rook =>
      rw [make_move_rook p sr sc dr dc _ promo hcell] at hq
      have h2 := Option.some.inj hq
      subst h2
      constructor
      · rintro ⟨rfl, rfl, -⟩
        show (if sr = ROW_8 ∧ sc = COL_A then false else p.black_can_castle_queenside) = _
        rw [if_neg hne]
      · rintro ⟨rfl, rfl, -⟩
        show (if sr = ROW_8 ∧ sc = COL_H then false else p.black_can_castle_kingside) = _
        rw [if_neg hne]
    | King =>
      rw [make_move_king p sr sc dr dc _ promo hcell] at hq
      have h2 := Option.some.inj hq
      subst h2
      exact ⟨fun _ => rfl, fun _ => rfl⟩
    | Knight =>
      rw [make_move_minor p sr sc dr dc _ _ promo hcell (Or.inl rfl)] at hq
      have h2 := Option.some.inj hq
      subst h2
      exact ⟨fun _ => rfl, fun _ => rfl⟩
    | Bishop =>
      rw [make_move_minor p sr sc dr dc _ _ promo hcell (Or.inr (Or.inl rfl))] at hq
      have h2 := Option.some.inj hq
      subst h2
      exact ⟨fun _ => rfl, fun _ => rfl⟩
    | Queen =>
      rw [make_move_minor p sr sc dr dc _ _ promo hcell (Or.inr (Or.inr rfl))] at hq
      have h2 := Option.some.inj hq
      subst h2
      exact ⟨fun _ => rfl, fun _ => rfl⟩

/-- C5 witness: moving the white rook out of a1 in a concrete position
clears the white queenside right. -/
theorem rook_castling_rights_witness :
    (posOfFen "4k3/8/8/8/8/R7/8/4K3 b - - 1 1").white_can_castle_queenside = false :=
  ((rook_castling_rights (posOfFen "4k3/8/8/8/8/8/8/R3K3 w Q - 0 1")
      7 0 5 0 none (posOfFen "4k3/8/8/8/8/R7/8/4K3 b - - 1 1")
      (by decide)).1 Color.White (by decide)).1 ⟨by decide, by decide⟩ |>.1

/-- C2 counterexample: make_move keys the en-passant recomputation on the
rows alone and never inspects the pawn's color.  Moving the black pawn on
a2 (row 6) to a4 (row 4) is a move from rank 2 to rank 4 by a Black pawn,
so the claim as stated requires the en-passant field to be cleared, yet
the code records the square behind the destination, (5, 0). -/
theorem en_passant_color_blind_cex :
    (posOfFen "k7/8/8/8/8/8/p7/K7 w - - 0 1").cells 6 0 =
      Cell.Piece PieceType.Pawn Color.Black ∧
    Option.map Position.en_passant
      (make_move (posOfFen "k7/8/8/8/8/8/p7/K7 w - - 0 1") (6, 0) (4, 0) none) =
      some (some (5, 0)) ∧
    (some (some ((5 : Nat), (0 : Nat))) : Option (Option (Nat × Nat))) ≠
      some none :=
  ⟨by decide, by decide, by decide⟩

/-- C2 as amended: after a completing make_move call the en-passant field
is Some of the square immediately behind the destination exactly when the
moved piece is a pawn moving from row 6 to row 4 (recorded square row 5)
or from row 1 to row 3 (recorded square row 2), irrespective of the
pawn's color, and is None in every other case, including when the
previous target was just consumed.  For pseudo-legal moves the row
condition coincides with the two-square advance from the home rank of the
claim, but the code never checks the mover's color. -/
theorem en_passant_after_move (p : Position) (sr sc dr dc : Fin 8)
    (promo : Option PieceType) (q : Position)
    (hq : make_move p (sr, sc) (dr, dc) promo = some q) :
    ((∃ c, p.cells sr sc = Cell.Piece PieceType.Pawn c) ∧
        sr = ROW_2 ∧ dr = ROW_4 →
      q.en_passant = some (5, dc.val)) ∧
    ((∃ c, p.cells sr sc = Cell.Piece PieceType.Pawn c) ∧
        sr = ROW_7 ∧ dr = ROW_5 →
      q.en_passant = some (2, dc.val)) ∧
    ((∀ c, p.cells sr sc ≠ Cell.Piece PieceType.Pawn c) ∨
        (¬(sr = ROW_2 ∧ dr = ROW_4) ∧ ¬(sr = ROW_7 ∧ dr = ROW_5)) →
      q.en_passant = none) := by
  cases hcell : p.cells sr sc with
  | Empty =>
    rw [make_move_src_empty p sr sc dr dc promo hcell] at hq
    exact absurd hq (by simp)
  | Piece t c =>
    cases t with
    | Pawn =>
      have hep : q.en_passant = pawnEpAfter sr dr dc := by
        by_cases hb : dr = ROW_1 ∨ dr = ROW_8
        · cases promo with
          | none =>
            rw [make_move_pawn_back_unwrap p sr sc dr dc c hcell hb] at hq
            exact absurd hq (by simp)
          | some t' =>
            rw [make_move_pawn_back_promo p sr sc dr dc c t' hcell hb] at hq
            have h2 := Option.some.inj hq
            subst h2
            rfl
        · rw [make_move_pawn_mid p sr sc dr dc c promo hcell hb] at hq
          have h2 := Option.some.inj hq
          subst h2
          rfl
      refine ⟨?_, ?_, ?_⟩
      · rintro ⟨-, rfl, rfl⟩
        rw [hep, pawnEpAfter, if_pos ⟨rfl, rfl⟩,
          show (ROW_4 : Fin 8).val + 1 = 5 from by decide]
      · rintro ⟨-, rfl, rfl⟩
        rw [hep, pawnEpAfter,
          if_neg (show ¬((ROW_7 : Fin 8) = ROW_2 ∧ (ROW_5 : Fin 8) = ROW_4) from
            by decide),
          if_pos ⟨rfl, rfl⟩,
          show (ROW_5 : Fin 8).val - 1 = 2 from by decide]
      · rintro (hnp | ⟨h24, h75⟩)
        · exact absurd rfl (hnp c)
        · rw [hep, pawnEpAfter, if_neg h24, if_neg h75]
    | Rook =>
      rw [make_move_rook p sr sc dr dc c promo hcell] at hq
      have h2 := Option.some.inj hq
      subst h2
      exact ⟨fun h => absurd h.1 (by simp), fun h => absurd h.1 (by simp),
        fun _ => rfl⟩
    | King =>
      rw [make_move_king p sr sc dr dc c promo hcell] at hq
      have h2 := Option.some.inj hq
      subst h2
      exact ⟨fun h => absurd h.1 (by simp), fun h => absurd h.1 (by simp),
        fun _ => rfl⟩
    | Knight =>
      rw [make_move_minor p sr sc dr dc _ c promo hcell (Or.inl rfl)] at hq
      have h2 := Option.some.inj hq
      subst h2
      exact ⟨fun h => absurd h.1 (by simp), fun h => absurd h.1 (by simp),
        fun _ => rfl⟩
    | Bishop =>
      rw [make_move_minor p sr sc dr dc _ c promo hcell (Or.inr (Or.inl rfl))] at hq
      have h2 := Option.some.inj hq
      subst h2
      exact ⟨fun h => absurd h.1 (by simp), fun h => absurd h.1 (by simp),
        fun _ => rfl⟩
    | Queen =>
      rw [make_move_minor p sr sc dr dc _ c promo hcell (Or.inr (Or.inr rfl))] at hq
      have h2 := Option.some.inj hq
      subst h2
      exact ⟨fun h => absurd h.1 (by simp), fun h => absurd h.1 (by simp),
        fun _ => rfl⟩

/-- C2 witness: the concrete double push e2 to e4 records e3, the square
behind the destination. -/
theorem en_passant_after_move_witness :
    (posOfFen "rnbqkbnr/pppppppp/8/8/4P3/8/PPPP1PPP/RNBQKBNR b KQkq e3 0 1").en_passant
      = some (5, 4) :=
  (en_passant_after_move
    (posOfFen "rnbqkbnr/pppppppp/8/8/8/8/PPPPPPPP/RNBQKBNR w KQkq - 0 1")
    6 4 4 4 none
    (posOfFen "rnbqkbnr/pppppppp/8/8/4P3/8/PPPP1PPP/RNBQKBNR b KQkq e3 0 1")
    (by decide)).1 ⟨⟨Color.White, by decide⟩, by decide, by decide⟩

/-- C3 counterexample: the FEN grammar accepts an en-passant target on
the eighth rank, and a pawn promotion into that target is an en-passant
capture per the claim's antecedent; the destination cell then receives
the promoted piece, not the moving pawn as the claim states. -/
theorem en_passant_capture_promotion_cex :
    (posOfFen "k7/4P3/8/8/8/8/8/K7 w - e8 0 1").en_passant = some (0, 4) ∧
    (posOfFen "k7/4P3/8/8/8/8/8/K7 w - e8 0 1").cells 1 4 =
      Cell.Piece PieceType.Pawn Color.White ∧
    Option.map (fun q => q.cells 0 4)
      (make_move (posOfFen "k7/4P3/8/8/8/8/8/K7 w - e8 0 1") (1, 4) (0, 4)
        (some PieceType.Queen)) =
      some (Cell.Piece PieceType.Queen Color.White) ∧
    Cell.Piece PieceType.Queen Color.White ≠ Cell.Piece PieceType.Pawn Color.White :=
  ⟨by decide, by decide, by decide, by decide⟩

/-- C3 as amended: when make_move moves a pawn and the destination equals
the recorded en-passant target, the cell at (source row, destination
column) is set to Empty — provided the destination row differs from the
source row (otherwise that cell is the destination itself) — and the
destination receives the moving pawn provided it is not on the first or
eighth rank (there a supplied promotion piece replaces it, as the
counterexample forces); a pawn move to any square other than the recorded
target changes no cell besides the source and the destination. -/
theorem en_passant_capture_board_effect (p : Position) (sr sc dr dc : Fin 8)
    (promo : Option PieceType) (q : Position) (c : Color)
    (hcell : p.cells sr sc = Cell.Piece PieceType.Pawn c)
    (hq : make_move p (sr, sc) (dr, dc) promo = some q) :
    (p.en_passant = some (dr.val, dc.val) → dr ≠ sr →
      q.cells sr dc = Cell.Empty ∧
      (¬(dr = ROW_1 ∨ dr = ROW_8) →
        q.cells dr dc = Cell.Piece PieceType.Pawn c)) ∧
    (p.en_passant ≠ some (dr.val, dc.val) →
      ∀ i j : Fin 8, ¬(i = sr ∧ j = sc) → ¬(i = dr ∧ j = dc) →
        q.cells i j = p.cells i j) := by
  by_cases hb : dr = ROW_1 ∨ dr = ROW_8
  · cases promo with
    | none =>
      rw [make_move_pawn_back_unwrap p sr sc dr dc c hcell hb] at hq
      exact absurd hq (by simp)
    | some t' =>
      rw [make_move_pawn_back_promo p sr sc dr dc c t' hcell hb] at hq
      have h2 := Option.some.inj hq
      subst h2
      constructor
      · intro hep hdr
        refine ⟨?_, fun hnb => absurd hb hnb⟩
        show setCell (pawnEpCells p sr sc dr dc (Cell.Piece PieceType.Pawn c))
          dr dc (Cell.Piece t' c) sr dc = Cell.Empty
        rw [setCell_ne_row _ _ _ _ _ _ (Ne.symm hdr)]
        rw [pawnEpCells, hep]
        dsimp only
        rw [if_pos ⟨rfl, rfl⟩, setCell_self]
      · intro hun i j h1 h2
        show setCell (pawnEpCells p sr sc dr dc (Cell.Piece PieceType.Pawn c))
          dr dc (Cell.Piece t' c) i j = p.cells i j
        rw [setCell_other _ _ _ _ _ _ h2, pawnEpCells]
        cases hepv : p.en_passant with
        | none =>
          dsimp only
          rw [baseCells, setCell_other _ _ _ _ _ _ h2,
            setCell_other _ _ _ _ _ _ h1]
        | some v =>
          obtain ⟨er, ec⟩ := v
          dsimp only
          rw [if_neg
              (fun hc => hun (by rw [hepv, ← hc.1, ← hc.2]) : ¬(dr.val = er ∧ dc.val = ec)),
            baseCells, setCell_other _ _ _ _ _ _ h2,
            setCell_other _ _ _ _ _ _ h1]
  · rw [make_move_pawn_mid p sr sc dr dc c promo hcell hb] at hq
    have h2 := Option.some.inj hq
    subst h2
    constructor
    · intro hep hdr
      constructor
      · show pawnEpCells p sr sc dr dc (Cell.Piece PieceType.Pawn c) sr dc =
          Cell.Empty
        rw [pawnEpCells, hep]
        dsimp only
        rw [if_pos ⟨rfl, rfl⟩, setCell_self]
      · intro _
        show pawnEpCells p sr sc dr dc (Cell.Piece PieceType.Pawn c) dr dc =
          Cell.Piece PieceType.Pawn c
        rw [pawnEpCells, hep]
        dsimp only
        rw [if_pos ⟨rfl, rfl⟩,
          setCell_ne_row _ _ _ _ _ _ hdr, baseCells, setCell_self]
    · intro hun i j h1 h2
      show pawnEpCells p sr sc dr dc (Cell.Piece PieceType.Pawn c) i j =
        p.cells i j
      rw [pawnEpCells]
      cases hepv : p.en_passant with
      | none =>
        dsimp only
        rw [baseCells, setCell_other _ _ _ _ _ _ h2,
          setCell_other _ _ _ _ _ _ h1]
      | some v =>
        obtain ⟨er, ec⟩ := v
        dsimp only
        rw [if_neg
            (fun hc => hun (by rw [hepv, ← hc.1, ← hc.2]) : ¬(dr.val = er ∧ dc.val = ec)),
          baseCells, setCell_other _ _ _ _ _ _ h2,
          setCell_other _ _ _ _ _ _ h1]

/-- C3 witness: the concrete white en-passant capture of the repository
test suite instantiates the theorem; the captured black pawn's square a5
is empty afterwards and the white pawn stands on a6. -/
theorem en_passant_capture_board_effect_witness :
    (posOfFen "k7/8/P7/8/8/8/8/K7 b - - 0 2").cells 3 0 = Cell.Empty ∧
    (posOfFen "k7/8/P7/8/8/8/8/K7 b - - 0 2").cells 2 0 =
      Cell.Piece PieceType.Pawn Color.White :=
  have h := en_passant_capture_board_effect
    (posOfFen "k7/8/8/pP6/8/8/8/K7 w - a6 0 2") 3 1 2 0 none
    (posOfFen "k7/8/P7/8/8/8/8/K7 b - - 0 2") Color.White
    (by decide) (by decide)
  have h1 := h.1 (by decide) (by decide)
  ⟨h1.1, h1.2 (by decide)⟩

theorem rankChar_cell (c : Char) (h : isRankChar c = true)
    (hd : to_digit10 c = none) : ∃ v, charToCell c = some v := by
  rw [isRankChar, Bool.or_eq_true] at h
  rcases h with h | h
  · rw [isPieceChar] at h
    simp only [Bool.or_eq_true, decide_eq_true_eq] at h
    rcases h with ((((((((((rfl | rfl) | rfl) | rfl) | rfl) | rfl) | rfl) | rfl) |
      rfl) | rfl) | rfl) | rfl <;> exact ⟨_, rfl⟩
  · rw [isRankDigit] at h
    simp only [Bool.or_eq_true, decide_eq_true_eq] at h
    rcases h with ((((((rfl | rfl) | rfl) | rfl) | rfl) | rfl) | rfl) | rfl <;>
      exact absurd hd (by decide)

theorem read_rank_none_iff (l : List Char) (hall : l.all isRankChar = true) :
    ∀ col acc, (read_rank l col acc = none ↔ rankOverflow l col = true) := by
  induction l with
  | nil => intro col acc; simp [read_rank, rankOverflow]
  | cons c cs ih =>
    intro col acc
    rw [List.all_cons, Bool.and_eq_true] at hall
    cases hd : to_digit10 c with
    | some d =>
      simp only [read_rank, rankOverflow, hd]
      exact ih hall.2 _ _
    | none =>
      obtain ⟨v, hv⟩ := rankChar_cell c hall.1 hd
      simp only [read_rank, rankOverflow, hd, hv]
      by_cases hcol : col < 8
      · rw [dif_pos hcol, if_pos hcol]
        exact ih hall.2 _ _
      · rw [dif_neg hcol, if_neg hcol]
        simp

theorem read_board_data_none (r1 r2 r3 r4 r5 r6 r7 r8 : List Char)
    (h : read_board_data [r1, r2, r3, r4, r5, r6, r7, r8] = none) :
    ∃ r ∈ [r1, r2, r3, r4, r5, r6, r7, r8],
      read_rank r 0 (fun _ => Cell.Empty) = none := by
  by_contra hc
  push_neg at hc
  obtain ⟨w1, hw1⟩ := Option.ne_none_iff_exists'.mp (hc r1 (by simp))
  obtain ⟨w2, hw2⟩ := Option.ne_none_iff_exists'.mp (hc r2 (by simp))
  obtain ⟨w3, hw3⟩ := Option.ne_none_iff_exists'.mp (hc r3 (by simp))
  obtain ⟨w4, hw4⟩ := Option.ne_none_iff_exists'.mp (hc r4 (by simp))
  obtain ⟨w5, hw5⟩ := Option.ne_none_iff_exists'.mp (hc r5 (by simp))
  obtain ⟨w6, hw6⟩ := Option.ne_none_iff_exists'.mp (hc r6 (by simp))
  obtain ⟨w7, hw7⟩ := Option.ne_none_iff_exists'.mp (hc r7 (by simp))
  obtain ⟨w8, hw8⟩ := Option.ne_none_iff_exists'.mp (hc r8 (by simp))
  rw [read_board_data] at h
  simp [hw1, hw2, hw3, hw4, hw5, hw6, hw7, hw8] at h

theorem boardFieldOk_elim (b : List Char) (h : boardFieldOk b = true) :
    ∃ r1 r2 r3 r4 r5 r6 r7 r8,
      splitOnChar '/' b = [r1, r2, r3, r4, r5, r6, r7, r8] ∧
      r1.all isRankChar = true ∧ r2.all isRankChar = true ∧
      r3.all isRankChar = true ∧ r4.all isRankChar = true ∧
      r5.all isRankChar = true ∧ r6.all isRankChar = true ∧
      r7.all isRankChar = true ∧ r8.all isRankChar = true := by
  rw [boardFieldOk] at h
  split at h
  · next r1 r2 r3 r4 r5 r6 r7 r8 heq =>
    simp only [Bool.and_eq_true] at h
    exact ⟨r1, r2, r3, r4, r5, r6, r7, r8, heq,
      h.1.1.1.1.1.1.1.2, h.1.1.1.1.1.1.2.2, h.1.1.1.1.1.2.2, h.1.1.1.1.2.2,
      h.1.1.1.2.2, h.1.1.2.2, h.1.2.2, h.2.2⟩
  · exact absurd h (by simp)

theorem matchesFen_elim (s : String) (h : matchesFen s = true) :
    ∃ b stm ca ep hmc mvn,
      splitOnChar ' ' s.toList = [b, stm, ca, ep, hmc, mvn] ∧
      boardFieldOk b = true ∧ stmFieldOk stm = true ∧
      castlingFieldOk ca = true ∧ epFieldOk ep = true ∧
      numFieldOk hmc = true ∧ numFieldOk mvn = true := by
  rw [matchesFen] at h
  split at h
  · next b stm ca ep hmc mvn heq =>
    simp only [Bool.and_eq_true] at h
    exact ⟨b, stm, ca, ep, hmc, mvn, heq, h.1.1.1.1.1, h.1.1.1.1.2,
      h.1.1.1.2, h.1.1.2, h.1.2, h.2⟩
  · exact absurd h (by simp)

theorem epFieldOk_shape (ep : List Char) (h : epFieldOk ep = true)
    (hd : ep ≠ ['-']) : ∃ c1 c2, ep = [c1, c2] := by
  rcases ep with _ | ⟨c1, _ | ⟨c2, _ | ⟨c3, rest⟩⟩⟩
  · exact absurd h (by decide)
  · dsimp only [epFieldOk] at h
    simp only [Bool.or_false, decide_eq_true_eq] at h
    exact absurd h hd
  · exact ⟨c1, c2, rfl⟩
  · dsimp only [epFieldOk] at h
    simp only [Bool.or_false, decide_eq_true_eq] at h
    simp at h

/-- C6 counterexample: the grammar places no upper bound on the
halfmove-clock digit run, but the decoder converts it into a 32-bit
unsigned integer with an unwrap; the string below matches the anchored
grammar, all of its rank descriptions sum to exactly 8 files, yet
from_fen neither returns a Position nor reports the regex parse error —
it aborts on the integer conversion. -/
theorem from_fen_clock_overflow_cex :
    matchesFen "8/8/8/8/8/8/8/8 w - - 4294967296 1" = true ∧
    from_fen "8/8/8/8/8/8/8/8 w - - 4294967296 1" =
      Except.error FenError.clockOverflow ∧
    (Except.error FenError.clockOverflow : Except FenError Position) ≠
      Except.error FenError.parseError ∧
    rankOverflow ('8' :: []) 0 = false :=
  ⟨by decide, by decide, by decide, by decide⟩

/-- C6 as amended: from_fen rejects every string that does not match the
anchored grammar with the parse error, returns a Position only on
grammar-matching strings, and on a grammar-matching string it returns a
Position except in two abort cases outside the parse-error class: the
index abort, which happens only when some rank description writes a piece
at or beyond the ninth file (the acknowledged rank-sum gap), and the
integer-conversion abort, which happens exactly when the halfmove-clock
digits denote a value of 2^32 or more: every such grammar-matching string
does abort with the conversion error rather than being silently accepted
(an abort the claim's exception clause does not cover, as the
counterexample forces). -/
theorem from_fen_outcomes (s : String) :
    (matchesFen s = false → from_fen s = Except.error FenError.parseError) ∧
    (∀ p, from_fen s = Except.ok p → matchesFen s = true) ∧
    (matchesFen s = true →
      (∃ p, from_fen s = Except.ok p) ∨
      from_fen s = Except.error FenError.clockOverflow ∨
      from_fen s = Except.error FenError.indexOutOfBounds) ∧
    (from_fen s = Except.error FenError.indexOutOfBounds →
      ∃ b stm ca ep hmc mvn,
        splitOnChar ' ' s.toList = [b, stm, ca, ep, hmc, mvn] ∧
        ∃ r ∈ splitOnChar '/' b, rankOverflow r 0 = true) ∧
    (from_fen s = Except.error FenError.clockOverflow →
      ∃ b stm ca ep hmc mvn,
        splitOnChar ' ' s.toList = [b, stm, ca, ep, hmc, mvn] ∧
        4294967296 ≤ natOfDigits hmc) ∧
    (matchesFen s = true →
      ∀ b stm ca ep hmc mvn,
        splitOnChar ' ' s.toList = [b, stm, ca, ep, hmc, mvn] →
        4294967296 ≤ natOfDigits hmc →
        from_fen s = Except.error FenError.clockOverflow) := by
  by_cases hm : matchesFen s = true
  · obtain ⟨b, stm, ca, ep, hmc, mvn, hsp, hbd, hstm, hca, hep, hh, hmv⟩ :=
      matchesFen_elim s hm
    by_cases hn : natOfDigits hmc < 4294967296
    · have hepv : ∃ env, (if ep = ['-'] then some (none : Option (Nat × Nat))
          else Option.map some (parse_algebraic_coords ep)) = some env := by
        by_cases hdash : ep = ['-']
        · exact ⟨none, by rw [if_pos hdash]⟩
        · obtain ⟨c1, c2, rfl⟩ := epFieldOk_shape ep hep hdash
          exact ⟨some (7 - (c2.toNat - '1'.toNat), c1.toNat - 'a'.toNat),
            by rw [if_neg hdash]; rfl⟩
      obtain ⟨env, henv⟩ := hepv
      cases hrb : read_board_data (splitOnChar '/' b) with
      | some cells =>
        have hval : from_fen s = Except.ok
            { cells := cells,
              side_to_move := if stm = ['w'] then Color.White else Color.Black,
              halfmove_clock := natOfDigits hmc,
              white_can_castle_kingside := ca.contains 'K',
              white_can_castle_queenside := ca.contains 'Q',
              black_can_castle_kingside := ca.contains 'k',
              black_can_castle_queenside := ca.contains 'q',
              en_passant := env } := by
          rw [from_fen, if_pos hm, hsp]
          dsimp only
          rw [if_pos hn, henv]
          dsimp only
          rw [hrb]
        refine ⟨fun hf => absurd hm (by rw [hf]; exact fun h => by cases h),
          fun _ _ => hm, fun _ => Or.inl ⟨_, hval⟩, fun hcon => ?_, fun hcon => ?_,
          fun _ b' stm' ca' ep' hmc' mvn' hsp' hge => ?_⟩
        · rw [hval] at hcon; cases hcon
        · rw [hval] at hcon; cases hcon
        · rw [hsp] at hsp'
          simp only [List.cons.injEq, and_true] at hsp'
          obtain ⟨-, -, -, -, h5, -⟩ := hsp'
          subst h5
          exact absurd hge (Nat.not_le.mpr hn)
      | none =>
        have hval : from_fen s = Except.error FenError.indexOutOfBounds := by
          rw [from_fen, if_pos hm, hsp]
          dsimp only
          rw [if_pos hn, henv]
          dsimp only
          rw [hrb]
        refine ⟨fun hf => absurd hm (by rw [hf]; exact fun h => by cases h),
          fun p hp => hm, fun _ => Or.inr (Or.inr hval), fun _ => ?_, fun hcon => ?_,
          fun _ b' stm' ca' ep' hmc' mvn' hsp' hge => ?_⟩
        · obtain ⟨r1, r2, r3, r4, r5, r6, r7, r8, hranks, ha1, ha2, ha3, ha4,
            ha5, ha6, ha7, ha8⟩ := boardFieldOk_elim b hbd
          rw [hranks] at hrb
          obtain ⟨r, hrmem, hrfail⟩ :=
            read_board_data_none r1 r2 r3 r4 r5 r6 r7 r8 hrb
          have hrall : r.all isRankChar = true := by
            simp only [List.mem_cons, List.not_mem_nil, or_false] at hrmem
            rcases hrmem with rfl | rfl | rfl | rfl | rfl | rfl | rfl | rfl <;>
              assumption
          refine ⟨b, stm, ca, ep, hmc, mvn, hsp, r, ?_, ?_⟩
          · rw [hranks]; exact hrmem
          · exact (read_rank_none_iff r hrall 0 _).mp hrfail
        · rw [hval] at hcon; cases hcon
        · rw [hsp] at hsp'
          simp only [List.cons.injEq, and_true] at hsp'
          obtain ⟨-, -, -, -, h5, -⟩ := hsp'
          subst h5
          exact absurd hge (Nat.not_le.mpr hn)
    · have hval : from_fen s = Except.error FenError.clockOverflow := by
        rw [from_fen, if_pos hm, hsp]
        dsimp only
        rw [if_neg hn]
      refine ⟨fun hf => absurd hm (by rw [hf]; exact fun h => by cases h),
        fun p hp => hm, fun _ => Or.inr (Or.inl hval), fun hcon => ?_,
        fun _ => ⟨b, stm, ca, ep, hmc, mvn, hsp, Nat.le_of_not_lt hn⟩,
        fun _ _ _ _ _ _ _ _ _ => hval⟩
      rw [hval] at hcon; cases hcon
  · have hmf : matchesFen s = false := by
      cases hx : matchesFen s
      · rfl
      · exact absurd hx hm
    have hval : from_fen s = Except.error FenError.parseError := by
      rw [from_fen, if_neg hm]
    refine ⟨fun _ => hval, fun p hp => ?_, fun hx => absurd hx hm,
      fun hcon => ?_, fun hcon => ?_, fun hx => absurd hx hm⟩
    · rw [hval] at hp; cases hp
    · rw [hval] at hcon; cases hcon
    · rw [hval] at hcon; cases hcon

/-- C6 witness: the theorem instantiated on a non-matching string yields
the parse error, on the empty-board FEN yields a Position, and on the
overflowing-clock FEN yields the conversion abort through the sufficiency
conjunct. -/
theorem from_fen_outcomes_witness :
    from_fen "not a fen" = Except.error FenError.parseError ∧
    ((∃ p, from_fen "8/8/8/8/8/8/8/8 w - - 0 1" = Except.ok p) ∨
      from_fen "8/8/8/8/8/8/8/8 w - - 0 1" =
        Except.error FenError.clockOverflow ∨
      from_fen "8/8/8/8/8/8/8/8 w - - 0 1" =
        Except.error FenError.indexOutOfBounds) ∧
    from_fen "8/8/8/8/8/8/8/8 w - - 4294967296 1" =
      Except.error FenError.clockOverflow :=
  ⟨(from_fen_outcomes "not a fen").1 (by decide),
   (from_fen_outcomes "8/8/8/8/8/8/8/8 w - - 0 1").2.2.1 (by decide),
   (from_fen_outcomes "8/8/8/8/8/8/8/8 w - - 4294967296 1").2.2.2.2.2
     (by decide)
     (['8', '/', '8', '/', '8', '/', '8', '/', '8', '/', '8', '/', '8', '/',
       '8'])
     (['w']) (['-']) (['-'])
     (['4', '2', '9', '4', '9', '6', '7', '2', '9', '6']) (['1'])
     (by decide) (by decide)⟩

/-- C10: from_fen is not total on input accepted by its own grammar
check: the string whose first rank field is 44P5 matches the compiled
pattern (two digits summing to 8 followed by a piece letter), yet
read_board_data attempts to store that piece at column index 8 of the
8 by 8 grid, so decoding aborts with the out-of-bounds index error
rather than returning a Position or reporting a parse error. -/
theorem from_fen_rank_overflow_abort :
    matchesFen "44P5/8/8/8/8/8/8/8 w - - 0 1" = true ∧
    read_rank ('4' :: '4' :: 'P' :: '5' :: []) 0 (fun _ => Cell.Empty) = none ∧
    rankOverflow ('4' :: '4' :: 'P' :: '5' :: []) 0 = true ∧
    from_fen "44P5/8/8/8/8/8/8/8 w - - 0 1" =
      Except.error FenError.indexOutOfBounds ∧
    (Except.error FenError.indexOutOfBounds : Except FenError Position) ≠
      Except.error FenError.parseError :=
  ⟨by decide, by decide, by decide, by decide, by decide⟩
